import Mathlib

set_option maxRecDepth 100000

/-!
Shallow embedding of `serverless/build.py` (Klayers build-and-deduplicate
pipeline) together with theorems about the claims of the specification.

The embedding models:
* `hashlib.sha256(... .encode('utf-8')).hexdigest()` — a concrete SHA-256
  implementation over byte lists (`hexdigest`, `utf8Encode`, `sha256_hexdigest`);
* `freeze_requirements` — the dependency fingerprinter, whose filesystem walk
  input (`os.walk`) is represented by a list of `WalkDir` records carrying the
  directory names and the `readlines` contents of the files seen by the walk;
* `check_requirement_hash`, and the orchestration in `main`, with the external
  effects (installer invocation, S3 upload, DynamoDB write) recorded as an
  explicit event trace.
-/

namespace Build

/-! ## SHA-256 (FIPS 180-4) over byte lists, words as `Nat` modulo `2^32` -/

/-- `2^32`, the word modulus of SHA-256. -/
def M32 : Nat := 4294967296

/-- Right rotation of a 32-bit word. -/
def rotr32 (x n : Nat) : Nat := (x >>> n) ||| ((x <<< (32 - n)) % M32)

/-- SHA-256 `Ch` function. -/
def shaCh (e f g : Nat) : Nat := (e &&& f) ^^^ ((e ^^^ 4294967295) &&& g)

/-- SHA-256 `Maj` function. -/
def shaMaj (a b c : Nat) : Nat := (a &&& b) ^^^ (a &&& c) ^^^ (b &&& c)

/-- SHA-256 big sigma 0. -/
def bigS0 (x : Nat) : Nat := rotr32 x 2 ^^^ rotr32 x 13 ^^^ rotr32 x 22

/-- SHA-256 big sigma 1. -/
def bigS1 (x : Nat) : Nat := rotr32 x 6 ^^^ rotr32 x 11 ^^^ rotr32 x 25

/-- SHA-256 small sigma 0. -/
def smallS0 (x : Nat) : Nat := rotr32 x 7 ^^^ rotr32 x 18 ^^^ (x >>> 3)

/-- SHA-256 small sigma 1. -/
def smallS1 (x : Nat) : Nat := rotr32 x 17 ^^^ rotr32 x 19 ^^^ (x >>> 10)

/-- The 64 SHA-256 round constants. -/
def shaK : List Nat :=
  [1116352408, 1899447441, 3049323471, 3921009573, 961987163, 1508970993,
   2453635748, 2870763221, 3624381080, 310598401, 607225278, 1426881987,
   1925078388, 2162078206, 2614888103, 3248222580, 3835390401, 4022224774,
   264347078, 604807628, 770255983, 1249150122, 1555081692, 1996064986,
   2554220882, 2821834349, 2952996808, 3210313671, 3336571891, 3584528711,
   113926993, 338241895, 666307205, 773529912, 1294757372, 1396182291,
   1695183700, 1986661051, 2177026350, 2456956037, 2730485921, 2820302411,
   3259730800, 3345764771, 3516065817, 3600352804, 4094571909, 275423344,
   430227734, 506948616, 659060556, 883997877, 958139571, 1322822218,
   1537002063, 1747873779, 1955562222, 2024104815, 2227730452, 2361852424,
   2428436474, 2756734187, 3204031479, 3329325298]

/-- The initial SHA-256 hash state. -/
def shaH0 : List Nat :=
  [1779033703, 3144134277, 1013904242, 2773480762,
   1359893119, 2600822924, 528734635, 1541459225]

/-- One step of the message-schedule extension; the accumulator holds the
schedule so far in reverse order (most recent word first). -/
def schedStep (w : List Nat) : List Nat :=
  (w.getD 15 0 + smallS0 (w.getD 14 0) + w.getD 6 0 + smallS1 (w.getD 1 0)) % M32 :: w

/-- Expand a 16-word block to the 64-word message schedule. -/
def schedule (block : List Nat) : List Nat :=
  ((List.range 48).foldl (fun w _ => schedStep w) block.reverse).reverse

/-- One SHA-256 compression round; the state is the list `[a,b,c,d,e,f,g,h]`
and `kw` pairs the round constant with the schedule word. -/
def compressStep (st : List Nat) (kw : Nat × Nat) : List Nat :=
  let a := st.getD 0 0
  let b := st.getD 1 0
  let c := st.getD 2 0
  let d := st.getD 3 0
  let e := st.getD 4 0
  let f := st.getD 5 0
  let g := st.getD 6 0
  let h := st.getD 7 0
  let t1 := (h + bigS1 e + shaCh e f g + kw.1 + kw.2) % M32
  let t2 := (bigS0 a + shaMaj a b c) % M32
  [(t1 + t2) % M32, a, b, c, (d + t1) % M32, e, f, g]

/-- Process one 16-word block, updating the running hash state. -/
def processBlock (H : List Nat) (block : List Nat) : List Nat :=
  let st := (shaK.zip (schedule block)).foldl compressStep H
  (H.zip st).map fun p => (p.1 + p.2) % M32

/-- Big-endian byte decomposition of `n` into `k` bytes. -/
def beBytes : Nat → Nat → List Nat
  | 0, _ => []
  | k + 1, n => beBytes k (n / 256) ++ [n % 256]

/-- SHA-256 padding: append `0x80`, zeros, and the 64-bit bit length. -/
def padMessage (msg : List Nat) : List Nat :=
  msg ++ 128 :: List.replicate ((64 - (msg.length + 9) % 64) % 64) 0 ++ beBytes 8 (8 * msg.length)

/-- Group bytes into big-endian 32-bit words (the padded message length is a
multiple of four bytes, so the catch-all case is never hit on padded input). -/
def bytesToWords : List Nat → List Nat
  | b0 :: b1 :: b2 :: b3 :: rest =>
      (((b0 * 256 + b1) * 256 + b2) * 256 + b3) :: bytesToWords rest
  | _ => []

/-- Group words into 16-word blocks (padded input is an exact multiple). -/
def toBlocks : List Nat → List (List Nat)
  | w0 :: w1 :: w2 :: w3 :: w4 :: w5 :: w6 :: w7 ::
    w8 :: w9 :: w10 :: w11 :: w12 :: w13 :: w14 :: w15 :: rest =>
      [w0, w1, w2, w3, w4, w5, w6, w7, w8, w9, w10, w11, w12, w13, w14, w15] :: toBlocks rest
  | _ => []

/-- The eight final SHA-256 state words of a byte-list message. -/
def sha256Words (msg : List Nat) : List Nat :=
  (toBlocks (bytesToWords (padMessage msg))).foldl processBlock shaH0

/-- Lowercase hexadecimal digit. -/
def hexChar (n : Nat) : Char := if n < 10 then Char.ofNat (48 + n) else Char.ofNat (87 + n)

/-- The eight hex characters of one 32-bit word, most significant first. -/
def wordHexChars (n : Nat) : List Char :=
  [hexChar (n / 268435456 % 16), hexChar (n / 16777216 % 16), hexChar (n / 1048576 % 16),
   hexChar (n / 65536 % 16), hexChar (n / 4096 % 16), hexChar (n / 256 % 16),
   hexChar (n / 16 % 16), hexChar (n % 16)]

/-- `hashlib.sha256(bytes).hexdigest()`: the 64-character lowercase hex digest. -/
def hexdigest (msg : List Nat) : String :=
  String.mk ((sha256Words msg).map wordHexChars).flatten

/-- UTF-8 encoding of a single code point (Python `str.encode('utf-8')`). -/
def utf8Bytes (c : Char) : List Nat :=
  let n := c.toNat
  if n < 128 then [n]
  else if n < 2048 then [192 + n / 64, 128 + n % 64]
  else if n < 65536 then [224 + n / 4096, 128 + n / 64 % 64, 128 + n % 64]
  else [240 + n / 262144, 128 + n / 4096 % 64, 128 + n / 64 % 64, 128 + n % 64]

/-- UTF-8 encoding of a string, as a byte list. -/
def utf8Encode (s : String) : List Nat := (s.data.map utf8Bytes).flatten

/-- `hashlib.sha256(s.encode('utf-8')).hexdigest()` as used in `build.py`. -/
def sha256_hexdigest (s : String) : String := hexdigest (utf8Encode s)

/-! ## Python string primitives

The Python builtins used by `build.py` (`str.split` on a single-character
separator, `str.strip`, `'\n'.join`, `sorted`) are embedded as structurally
recursive functions over code-point lists, so that all of them evaluate inside
the kernel.  Strings compare exactly as in Python: lexicographically by code
point. -/

/-- The whitespace characters removed by Python's `str.strip()`. -/
def isPySpace (c : Char) : Bool :=
  c = ' ' || c = '\t' || c = '\n' || c = '\r' || c = '\x0b' || c = '\x0c'

/-- `str.strip()` over code points: drop whitespace from both ends. -/
def stripChars (l : List Char) : List Char :=
  ((l.dropWhile isPySpace).reverse.dropWhile isPySpace).reverse

/-- Python `str.strip()`. -/
def pyStrip (s : String) : String := String.mk (stripChars s.data)

/-- `str.split(sep)` for a one-character separator: split at every occurrence,
never collapsing, so the result always has one more part than there are
separators (in particular `"".split('-') = [""]`). -/
def splitChar (sep : Char) : List Char → List (List Char)
  | [] => [[]]
  | c :: cs =>
      if c = sep then [] :: splitChar sep cs
      else
        match splitChar sep cs with
        | r :: rs => (c :: r) :: rs
        | [] => [[c]]

/-- Python `str.split(sep)` with a one-character separator. -/
def pySplit (sep : Char) (s : String) : List String := (splitChar sep s.data).map String.mk

/-- Python `'\n'.join(entries)`. -/
def joinlines : List String → String
  | [] => ""
  | [a] => a
  | a :: b :: rest => a ++ "\n" ++ joinlines (b :: rest)

/-- Lexicographic "less or equal" on code-point lists, as Python compares
strings. -/
def lexLe : List Char → List Char → Bool
  | [], _ => true
  | _ :: _, [] => false
  | a :: as, b :: bs =>
      if a.toNat < b.toNat then true
      else if b.toNat < a.toNat then false
      else lexLe as bs

/-- The string order used by Python's `sorted`. -/
def pyLe (s t : String) : Prop := lexLe s.data t.data = true

instance : DecidableRel pyLe :=
  fun s t => inferInstanceAs (Decidable (lexLe s.data t.data = true))

/-! ## The dependency fingerprinter: `freeze_requirements`

`freeze_requirements(package, path, version)` walks `path` with `os.walk`.
The walk is embedded as a list of `WalkDir` records, one per `(subdir, dirs,
files)` triple yielded by `os.walk`; since the function reads each `PKG-INFO`
file it encounters with `readlines`, a file is carried as its name together
with the list of lines `readlines` would return. -/

/-- One `(subdir, dirs, files)` triple of the `os.walk` traversal; each file
name is paired with the `readlines` contents of the file at `subdir/file`. -/
structure WalkDir where
  subdir : String
  dirs : List String
  files : List (String × List String)

/-- The `.dist-info` branch of the walk body (`build.py` lines 68-73): a
directory whose last ten characters are `.dist-info` has that suffix removed
and the remainder split on `-`; the first segment is the package name and the
second the version.  Python raises `IndexError` when there is no second
segment, embedded as the `Except.error` case. -/
def distInfoEntry (d : String) : Except String (Option String) :=
  if d.takeRight 10 = ".dist-info" then
    match pySplit '-' (d.dropRight 10) with
    | package_name :: package_version :: _ =>
        .ok (some (package_name ++ "==" ++ package_version))
    | _ => .error "IndexError: list index out of range"
  else .ok none

/-- The `.dist-info` entries contributed by the `dirs` of one walk triple, in
traversal order, propagating the first `IndexError`. -/
def distInfoEntries : List String → Except String (List String)
  | [] => .ok []
  | d :: ds => do
      let e ← distInfoEntry d
      let rest ← distInfoEntries ds
      match e with
      | some s => .ok (s :: rest)
      | none => .ok rest

/-- One line of the `PKG-INFO` scan (`build.py` lines 81-85): a `Version:`
line overwrites the version value, a `Name:` line the name value, so the last
occurrence of each header wins. -/
def pkgInfoStep (acc : Option String × Option String) (line : String) :
    Option String × Option String :=
  let acc1 := if line.take 8 = "Version:" then (some (pyStrip (line.drop 8)), acc.2) else acc
  if line.take 5 = "Name:" then (acc1.1, some (pyStrip (line.drop 5))) else acc1

/-- The scan of a `PKG-INFO` file's lines (`build.py` lines 80-85), one
`pkgInfoStep` per line starting from the Python initialisation to `False`. -/
def pkgInfoScan (lines : List String) : Option String × Option String :=
  lines.foldl pkgInfoStep (none, none)

/-- The entry contributed by one `PKG-INFO` file (`build.py` lines 86-87):
Python's truthiness test `if package_version and package_name` rejects both a
never-assigned value (`False`) and an empty string. -/
def parsePkgInfo (lines : List String) : Option String :=
  match pkgInfoScan lines with
  | (some v, some n) => if v = "" ∨ n = "" then none else some (n ++ "==" ++ v)
  | _ => none

/-- The `PKG-INFO` entries contributed by the files of one walk triple
(`build.py` lines 76-87): only files named exactly `PKG-INFO` inside a
`subdir` whose last eight characters are `egg-info` contribute. -/
def pkgInfoEntries (subdir : String) (files : List (String × List String)) : List String :=
  files.filterMap fun f =>
    if f.1 = "PKG-INFO" ∧ subdir.takeRight 8 = "egg-info" then parsePkgInfo f.2 else none

/-- The full `requirements` list accumulated over the walk (`build.py`
lines 64-87): per triple, first the `.dist-info` entries, then the `PKG-INFO`
entries. -/
def walkEntries : List WalkDir → Except String (List String)
  | [] => .ok []
  | w :: ws => do
      let ds ← distInfoEntries w.dirs
      let rest ← walkEntries ws
      .ok (ds ++ pkgInfoEntries w.subdir w.files ++ rest)

/-- Python's `sorted` on strings: lexicographic by code point. -/
def sortStrings (l : List String) : List String := l.insertionSort pyLe

/-- `freeze_requirements` (`build.py` lines 58-92).  The collected entries are
sorted and joined with newline; the SHA-256 hex digest is taken of the joined
text, and the *stripped* joined text is returned together with that digest.
The `package` and `version` parameters are accepted but never used, exactly as
in the source. -/
def freeze_requirements (package : String) (walk : List WalkDir) (version : String) :
    Except String (String × String) := do
  let requirements ← walkEntries walk
  let requirements_txt := joinlines (sortStrings requirements)
  let requirements_hash := sha256_hexdigest requirements_txt
  .ok (pyStrip requirements_txt, requirements_hash)

/-! ## Ledger, effects and the pipeline orchestrator `main`

External effects (the installer subprocess, the S3 upload and the DynamoDB
write) are recorded as an explicit event trace; the DynamoDB table behind
`REQS_DB` is embedded as a list of records. -/

/-- One item of the requirements table (`put_requirements_hash`, lines 18-22). -/
structure LedgerRecord where
  package : String
  version : String
  requirements : String
  requirements_hash : String
  created_date : String
deriving DecidableEq

/-- `check_requirement_hash` (`build.py` lines 34-55): queries the table with
`Key("package").eq(package) & Key("requirements_hash").eq(requirements_hash)`
and returns whether at least one item matched. -/
def check_requirement_hash (table : List LedgerRecord) (package requirements_hash : String) :
    Bool :=
  let items := table.filter fun r =>
    r.package == package && r.requirements_hash == requirements_hash
  if 0 < items.length then true else false

/-- The externally visible effects of one pipeline run, in execution order:
the installer subprocess (`install`, which records but never examines the
exit status), the S3 upload (`upload_to_s3`), and the DynamoDB write
(`put_requirements_hash`). -/
inductive Event where
  | installer (package : String) (exitCode : Nat) : Event
  | s3Upload (zip_file package uploaded_file_name : String) : Event
  | ledgerWrite (package version requirements_txt requirements_hash : String) : Event
deriving DecidableEq

/-- Whether an event is an upload to the blob store. -/
def Event.isUpload : Event → Bool
  | .s3Upload _ _ _ => true
  | _ => false

/-- Whether an event is a write of a ledger record. -/
def Event.isLedgerWrite : Event → Bool
  | .ledgerWrite _ _ _ _ => true
  | _ => false

/-- The Lambda invocation payload (`event` in `main`); `license_info` is an
opaque passthrough value, so its type is a parameter. -/
structure BuildEvent (α : Type) where
  package : String
  version : String
  license_info : α

/-- The dictionary returned by `main` (`build.py` lines 214-218): exactly the
five keys `zip_file`, `package`, `version`, `requirements_hash`,
`license_info`. -/
structure PipelineResult (α : Type) where
  zip_file : String
  package : String
  version : String
  requirements_hash : String
  license_info : α
deriving DecidableEq

/-- The state of the world a run executes against: the exit status the
external installer will report, the installed tree the walk will see after
installation, and the current contents of the requirements table. -/
structure Env where
  installExit : Nat
  walk : List WalkDir
  ledger : List LedgerRecord

/-- `zip_dir` (`build.py` lines 123-130): the archive lands at
`/tmp/{package}.zip`. -/
def zip_dir_path (package : String) : String := "/tmp/" ++ package ++ ".zip"

/-- `main` (`build.py` lines 171-218).  The run installs (the subprocess
result is only logged — its exit status is never examined, so the pipeline
continues regardless), fingerprints the tree, archives, and then either
uploads to S3 and writes the ledger record (when `check_requirement_hash` is
false) or does neither.  The same result dictionary is returned on both
branches.  The only failure modelled is the `IndexError` that
`freeze_requirements` can raise. -/
def main (env : Env) (event : BuildEvent α) :
    Except String (PipelineResult α × List Event) := do
  let package := event.package
  let version := event.version
  let license_info := event.license_info
  let uploaded_file_name := package ++ ".zip"
  let (requirements_txt, requirements_hash) ←
    freeze_requirements package env.walk version
  let zip_file := zip_dir_path package
  let publishEvents :=
    if check_requirement_hash env.ledger package requirements_hash = false then
      [Event.s3Upload zip_file package uploaded_file_name,
       Event.ledgerWrite package version requirements_txt requirements_hash]
    else []
  .ok ({ zip_file := uploaded_file_name, package := package, version := version,
         requirements_hash := requirements_hash, license_info := license_info },
       Event.installer package env.installExit :: publishEvents)

/-! ## Helper lemmas -/

/-- Two strings with the same code points are equal. -/
theorem string_eq_of_data_eq {a b : String} (h : a.data = b.data) : a = b := by
  cases a
  cases b
  exact congrArg String.mk h

/-- Two characters with the same code point are equal. -/
theorem char_eq_of_toNat_eq {a b : Char} (h : a.toNat = b.toNat) : a = b :=
  Char.eq_of_val_eq (UInt32.toNat.inj h)

/-- `lexLe` is total. -/
theorem lexLe_total : ∀ a b : List Char, lexLe a b = true ∨ lexLe b a = true
  | [], _ => Or.inl rfl
  | _ :: _, [] => Or.inr rfl
  | a :: as, b :: bs => by
      simp only [lexLe]
      rcases Nat.lt_trichotomy a.toNat b.toNat with h | h | h
      · left
        simp [h]
      · have h1 : ¬ a.toNat < b.toNat := by omega
        have h2 : ¬ b.toNat < a.toNat := by omega
        rcases lexLe_total as bs with h3 | h3
        · left
          simp [h1, h2, h3]
        · right
          simp [h1, h2, h3, h]
      · right
        simp [h]

/-- `lexLe` is transitive. -/
theorem lexLe_trans : ∀ a b c : List Char,
    lexLe a b = true → lexLe b c = true → lexLe a c = true
  | [], _, _ => by intro _ _; rfl
  | _ :: _, [], _ => by intro h _; exact Bool.noConfusion h
  | _ :: _, _ :: _, [] => by intro _ h; exact Bool.noConfusion h
  | a :: as, b :: bs, c :: cs => by
      intro h1 h2
      simp only [lexLe] at h1 h2 ⊢
      by_cases hab : a.toNat < b.toNat
      · by_cases hbc : b.toNat < c.toNat
        · simp [show a.toNat < c.toNat by omega]
        · by_cases hcb : c.toNat < b.toNat
          · simp [hbc, hcb] at h2
          · simp [show a.toNat < c.toNat by omega]
      · by_cases hba : b.toNat < a.toNat
        · simp [hab, hba] at h1
        · by_cases hbc : b.toNat < c.toNat
          · simp [show a.toNat < c.toNat by omega]
          · by_cases hcb : c.toNat < b.toNat
            · simp [hbc, hcb] at h2
            · have h1x : lexLe as bs = true := by simpa [hab, hba] using h1
              have h2x : lexLe bs cs = true := by simpa [hbc, hcb] using h2
              simp [show ¬ a.toNat < c.toNat by omega, show ¬ c.toNat < a.toNat by omega,
                    lexLe_trans as bs cs h1x h2x]

/-- `lexLe` is antisymmetric. -/
theorem lexLe_antisymm : ∀ a b : List Char, lexLe a b = true → lexLe b a = true → a = b
  | [], [] => by intro _ _; rfl
  | [], _ :: _ => by intro _ h; simp [lexLe] at h
  | _ :: _, [] => by intro h _; simp [lexLe] at h
  | a :: as, b :: bs => by
      simp only [lexLe]
      intro h1 h2
      have hne1 : ¬ a.toNat < b.toNat := by
        intro hlt
        simp [hlt, Nat.lt_asymm hlt] at h2
      have hne2 : ¬ b.toNat < a.toNat := by
        intro hlt
        simp [hlt, Nat.lt_asymm hlt] at h1
      simp [hne1, hne2] at h1 h2
      have heq : a = b := char_eq_of_toNat_eq (by omega)
      rw [heq, lexLe_antisymm as bs h1 h2]

instance : IsTotal String pyLe := ⟨fun a b => lexLe_total a.data b.data⟩

instance : IsTrans String pyLe := ⟨fun a b c => lexLe_trans a.data b.data c.data⟩

instance : IsAntisymm String pyLe :=
  ⟨fun a b h1 h2 => string_eq_of_data_eq (lexLe_antisymm a.data b.data h1 h2)⟩

/-- Unfolding lemma for `freeze_requirements` on a successful walk: the
returned text is the stripped sorted join, and the returned digest is the
digest of the *unstripped* sorted join. -/
theorem freeze_requirements_eq (p v : String) (w : List WalkDir) (l : List String)
    (h : walkEntries w = .ok l) :
    freeze_requirements p w v =
      .ok (pyStrip (joinlines (sortStrings l)),
           sha256_hexdigest (joinlines (sortStrings l))) := by
  unfold freeze_requirements
  rw [h]
  rfl

/-- Sorting is invariant under permutation of the input. -/
theorem sortStrings_eq_of_perm {l1 l2 : List String} (h : l1.Perm l2) :
    sortStrings l1 = sortStrings l2 := by
  unfold sortStrings
  exact List.eq_of_perm_of_sorted
    ((List.perm_insertionSort _ l1).trans (h.trans (List.perm_insertionSort _ l2).symm))
    (List.sorted_insertionSort _ l1) (List.sorted_insertionSort _ l2)

/-! ## Claims -/

/-- C10: the manifest text and fingerprint produced by `freeze_requirements`
do not depend on the `version` argument passed to it: for any fixed installed
tree, any two version values yield identical manifest text and identical
fingerprint (the parameter is never read). -/
theorem freeze_requirements_version_independent
    (package : String) (walk : List WalkDir) (v1 v2 : String) :
    freeze_requirements package walk v1 = freeze_requirements package walk v2 := rfl

/-- C1: the manifest text and fingerprint depend only on the multiset of
discovered entries, not on the order the walk yields them: two walks whose
collected entry lists are permutations of one another produce identical
manifest text and identical fingerprint (the unused `package`/`version`
arguments may even differ). -/
theorem freeze_requirements_order_independent
    (p1 p2 v1 v2 : String) (w1 w2 : List WalkDir) (l1 l2 : List String)
    (h1 : walkEntries w1 = .ok l1) (h2 : walkEntries w2 = .ok l2)
    (hperm : l1.Perm l2) :
    freeze_requirements p1 w1 v1 = freeze_requirements p2 w2 v2 := by
  rw [freeze_requirements_eq p1 v1 w1 l1 h1, freeze_requirements_eq p2 v2 w2 l2 h2,
      sortStrings_eq_of_perm hperm]

/-- The tree of the end-to-end scenario, discovered in one order. -/
def c1walk1 : List WalkDir :=
  [⟨"/tmp/python", ["requests-2.31.0.dist-info", "urllib3-2.0.0.dist-info"], []⟩]

/-- The same tree, discovered in the opposite order. -/
def c1walk2 : List WalkDir :=
  [⟨"/tmp/python", ["urllib3-2.0.0.dist-info", "requests-2.31.0.dist-info"], []⟩]

/-- C1 witness: two walks of the end-to-end-scenario tree in opposite orders
produce identical `freeze_requirements` output. -/
theorem freeze_requirements_order_independent_witness :
    freeze_requirements "requests" c1walk1 "2.31.0" =
      freeze_requirements "requests" c1walk2 "2.31.0" :=
  freeze_requirements_order_independent "requests" "requests" "2.31.0" "2.31.0"
    c1walk1 c1walk2
    ["requests==2.31.0", "urllib3==2.0.0"] ["urllib3==2.0.0", "requests==2.31.0"]
    rfl rfl (List.Perm.swap "urllib3==2.0.0" "requests==2.31.0" [])

/-- A tree with a single dist-info directory whose name begins with a space,
so the joined manifest text has leading whitespace. -/
def c5walk : List WalkDir := [⟨"/tmp/python", [" a-1.dist-info"], []⟩]

/-- C5 counterexample: the returned fingerprint is *not* the SHA-256 digest of
the returned manifest text, because the digest is computed before the final
`strip()`: on a tree whose sole entry is `" a==1"`, the returned text is
`"a==1"` but the returned digest is that of `" a==1"`. -/
theorem freeze_requirements_hash_of_returned_text_counterexample :
    ∃ t h, freeze_requirements "p" c5walk "1" = .ok (t, h) ∧ h ≠ sha256_hexdigest t :=
  ⟨"a==1", sha256_hexdigest " a==1", rfl, by decide⟩

/-- C5 (amended): the manifest text returned by `freeze_requirements` equals
the collected entries sorted lexicographically, joined with newline, with
leading and trailing whitespace stripped; the returned fingerprint is the
SHA-256 hex digest of the UTF-8 encoding of the joined sorted text *before*
stripping (so it agrees with the digest of the returned text exactly when the
joined text has no leading or trailing whitespace). -/
theorem freeze_requirements_text_and_hash (p v : String) (w : List WalkDir) (l : List String)
    (h : walkEntries w = .ok l) :
    freeze_requirements p w v =
      .ok (pyStrip (joinlines (sortStrings l)),
           sha256_hexdigest (joinlines (sortStrings l))) :=
  freeze_requirements_eq p v w l h

/-- C5 witness: the amended statement evaluated on the end-to-end-scenario
tree. -/
theorem freeze_requirements_text_and_hash_witness :
    freeze_requirements "requests" c1walk1 "2.31.0" =
      .ok (pyStrip (joinlines (sortStrings ["requests==2.31.0", "urllib3==2.0.0"])),
           sha256_hexdigest (joinlines (sortStrings ["requests==2.31.0", "urllib3==2.0.0"]))) :=
  freeze_requirements_text_and_hash "requests" "2.31.0" c1walk1
    ["requests==2.31.0", "urllib3==2.0.0"] rfl

/-- A tree in which the same `(name, version)` pair is discovered twice: once
via a dist-info directory and once via an egg-info `PKG-INFO`. -/
def c4walk : List WalkDir :=
  [⟨"/tmp/python", ["foo-1.0.dist-info"], []⟩,
   ⟨"/tmp/python/foo.egg-info", [], [("PKG-INFO", ["Name: foo\n", "Version: 1.0\n"])]⟩]

/-- C4 counterexample: a pair discovered via both a dist-info directory and an
egg-info `PKG-INFO` appears *twice* in the final manifest text — the entry
sequence is not deduplicated. -/
theorem manifest_duplicate_counterexample :
    walkEntries c4walk = .ok ["foo==1.0", "foo==1.0"] ∧
    (∃ h, freeze_requirements "foo" c4walk "1.0" = .ok ("foo==1.0\nfoo==1.0", h)) ∧
    ¬ (sortStrings ["foo==1.0", "foo==1.0"]).Nodup :=
  ⟨rfl, ⟨sha256_hexdigest "foo==1.0\nfoo==1.0", rfl⟩, by decide⟩

/-- C4 (amended): the manifest's entry sequence preserves multiplicities: the
sorted sequence underlying the manifest text contains each `name==version`
string exactly as many times as it was discovered during the walk, so a pair
discovered more than once appears more than once. -/
theorem manifest_preserves_multiplicity (p v : String) (w : List WalkDir) (l : List String)
    (h : walkEntries w = .ok l) (s : String) :
    (sortStrings l).count s = l.count s ∧
    freeze_requirements p w v =
      .ok (pyStrip (joinlines (sortStrings l)),
           sha256_hexdigest (joinlines (sortStrings l))) :=
  ⟨(List.perm_insertionSort _ l).count_eq s, freeze_requirements_eq p v w l h⟩

/-- C4 witness: on the duplicated tree, `foo==1.0` occurs twice in the sorted
entry sequence. -/
theorem manifest_preserves_multiplicity_witness :
    (sortStrings ["foo==1.0", "foo==1.0"]).count "foo==1.0" =
        ["foo==1.0", "foo==1.0"].count "foo==1.0" ∧
    freeze_requirements "foo" c4walk "1.0" =
      .ok (pyStrip (joinlines (sortStrings ["foo==1.0", "foo==1.0"])),
           sha256_hexdigest (joinlines (sortStrings ["foo==1.0", "foo==1.0"]))) :=
  manifest_preserves_multiplicity "foo" "1.0" c4walk ["foo==1.0", "foo==1.0"] rfl "foo==1.0"

/-! ## Pipeline helper lemmas -/

/-- `check_requirement_hash` returns true exactly when the table contains at
least one record matching both keys. -/
theorem check_requirement_hash_iff (table : List LedgerRecord) (p h : String) :
    check_requirement_hash table p h = true ↔
      ∃ r ∈ table, r.package = p ∧ r.requirements_hash = h := by
  have hval : check_requirement_hash table p h =
      if 0 < (table.filter fun r => r.package == p && r.requirements_hash == h).length
      then true else false := rfl
  rw [hval]
  constructor
  · intro hc
    split at hc
    · rename_i hlen
      obtain ⟨r, hr⟩ := List.exists_mem_of_length_pos hlen
      have hm := List.mem_filter.mp hr
      refine ⟨r, hm.1, ?_, ?_⟩
      · have := hm.2
        simp only [Bool.and_eq_true, beq_iff_eq] at this
        exact this.1
      · have := hm.2
        simp only [Bool.and_eq_true, beq_iff_eq] at this
        exact this.2
    · exact absurd hc (by simp)
  · rintro ⟨r, hmem, h1, h2⟩
    have hr : r ∈ table.filter fun r => r.package == p && r.requirements_hash == h :=
      List.mem_filter.mpr ⟨hmem, by simp [h1, h2]⟩
    have hlen := List.length_pos_of_mem hr
    simp [hlen]

/-- Unfolding lemma for `main` on a run whose fingerprinting succeeds. -/
theorem main_eq {α : Type} (env : Env) (event : BuildEvent α) (txt hash : String)
    (hfr : freeze_requirements event.package env.walk event.version = .ok (txt, hash)) :
    main env event = .ok
      ({ zip_file := event.package ++ ".zip", package := event.package,
         version := event.version, requirements_hash := hash,
         license_info := event.license_info },
       Event.installer event.package env.installExit ::
         (if check_requirement_hash env.ledger event.package hash = false then
            [Event.s3Upload (zip_dir_path event.package) event.package
               (event.package ++ ".zip"),
             Event.ledgerWrite event.package event.version txt hash]
          else [])) := by
  unfold main
  dsimp only
  rw [hfr]
  rfl

/-- A successful run implies a successful fingerprinting step. -/
theorem main_ok_freeze {α : Type} (env : Env) (event : BuildEvent α)
    (res : PipelineResult α) (tr : List Event)
    (h : main env event = .ok (res, tr)) :
    ∃ txt hash, freeze_requirements event.package env.walk event.version = .ok (txt, hash) := by
  cases hfr : freeze_requirements event.package env.walk event.version with
  | error e =>
      exfalso
      unfold main at h
      dsimp only at h
      rw [hfr] at h
      exact Except.noConfusion h
  | ok p =>
      obtain ⟨t, hh⟩ := p
      exact ⟨t, hh, rfl⟩

/-- C2: in every run whose ledger already contains a record keyed by the
run's `(package, fingerprint)`, the run performs no upload to the blob store
and writes no new ledger record (both effect counts are zero); and
`check_requirement_hash` returns true if and only if at least one matching
record exists for the `(package, requirements_hash)` pair. -/
theorem dedup_idempotent {α : Type} (env : Env) (event : BuildEvent α)
    (res : PipelineResult α) (tr : List Event)
    (hrun : main env event = .ok (res, tr)) :
    ((∃ r ∈ env.ledger, r.package = event.package ∧
        r.requirements_hash = res.requirements_hash) →
      tr.countP Event.isUpload = 0 ∧ tr.countP Event.isLedgerWrite = 0) ∧
    (∀ (table : List LedgerRecord) (p h : String),
      check_requirement_hash table p h = true ↔
        ∃ r ∈ table, r.package = p ∧ r.requirements_hash = h) := by
  refine ⟨?_, check_requirement_hash_iff⟩
  rintro ⟨r, hmem, hp, hh⟩
  obtain ⟨txt, hash, hfr⟩ := main_ok_freeze env event res tr hrun
  rw [main_eq env event txt hash hfr] at hrun
  simp only [Except.ok.injEq, Prod.mk.injEq] at hrun
  obtain ⟨hres, htr⟩ := hrun
  have hhash : res.requirements_hash = hash := by rw [← hres]
  have hcheck : check_requirement_hash env.ledger event.package hash = true :=
    (check_requirement_hash_iff env.ledger event.package hash).mpr
      ⟨r, hmem, hp, by rw [hh, hhash]⟩
  rw [hcheck] at htr
  simp only [Bool.true_eq_false, if_neg] at htr
  rw [← htr]
  exact ⟨rfl, rfl⟩

/-- The ledger record of a previously built `(package, fingerprint)` pair for
the C2 witness run. -/
def c2record : LedgerRecord :=
  ⟨"p", "1", "", sha256_hexdigest "", "2020-01-01T00:00:00"⟩

/-- The environment of the C2 witness run: the ledger already holds the
fingerprint of the empty tree. -/
def c2env : Env := ⟨0, [], [c2record]⟩

/-- The invocation payload of the C2 witness run. -/
def c2event : BuildEvent String := ⟨"p", "1", "MIT"⟩

/-- C2 witness: a concrete run whose fingerprint is already in the ledger
performs zero uploads and zero ledger writes. -/
theorem dedup_idempotent_witness :
    [Event.installer "p" 0].countP Event.isUpload = 0 ∧
    [Event.installer "p" 0].countP Event.isLedgerWrite = 0 :=
  (dedup_idempotent c2env c2event
      ⟨"p" ++ ".zip", "p", "1", sha256_hexdigest "", "MIT"⟩
      [Event.installer "p" 0] rfl).1
    ⟨c2record, by simp [c2env], rfl, rfl⟩

/-- C6: in every run that publishes, the upload to the blob store happens
before the ledger record is written: any `ledgerWrite` event in the trace is
preceded by an `s3Upload` event (expressed as an ordered sublist of the
trace). -/
theorem upload_precedes_ledger_write {α : Type} (env : Env) (event : BuildEvent α)
    (res : PipelineResult α) (tr : List Event) (p v t h : String)
    (hrun : main env event = .ok (res, tr))
    (hlw : Event.ledgerWrite p v t h ∈ tr) :
    ∃ z q k, List.Sublist [Event.s3Upload z q k, Event.ledgerWrite p v t h] tr := by
  obtain ⟨txt, hash, hfr⟩ := main_ok_freeze env event res tr hrun
  rw [main_eq env event txt hash hfr] at hrun
  simp only [Except.ok.injEq, Prod.mk.injEq] at hrun
  obtain ⟨hres, htr⟩ := hrun
  subst htr
  by_cases hc : check_requirement_hash env.ledger event.package hash = false
  · rw [if_pos hc] at hlw ⊢
    simp only [List.mem_cons, List.mem_singleton, List.not_mem_nil] at hlw
    rcases hlw with h1 | h1 | h1
    · exact absurd h1 (by simp)
    · exact absurd h1 (by simp)
    · rcases h1 with h1 | h1
      · obtain ⟨hp, hv, ht, hh⟩ := Event.ledgerWrite.inj h1
        subst hp; subst hv; subst ht; subst hh
        exact ⟨zip_dir_path event.package, event.package, event.package ++ ".zip",
          List.Sublist.cons _ (List.Sublist.refl _)⟩
      · exact absurd h1 (by simp)
  · rw [if_neg hc] at hlw
    simp at hlw

/-- C6 witness: in a concrete publishing run (empty ledger), the trace
contains the upload strictly before the ledger write. -/
theorem upload_precedes_ledger_write_witness :
    ∃ z q k, List.Sublist
      [Event.s3Upload z q k, Event.ledgerWrite "p" "1" "" (sha256_hexdigest "")]
      [Event.installer "p" 0,
       Event.s3Upload (zip_dir_path "p") "p" ("p" ++ ".zip"),
       Event.ledgerWrite "p" "1" "" (sha256_hexdigest "")] :=
  upload_precedes_ledger_write ⟨0, [], []⟩ c2event
    ⟨"p" ++ ".zip", "p", "1", sha256_hexdigest "", "MIT"⟩
    [Event.installer "p" 0,
     Event.s3Upload (zip_dir_path "p") "p" ("p" ++ ".zip"),
     Event.ledgerWrite "p" "1" "" (sha256_hexdigest "")]
    "p" "1" "" (sha256_hexdigest "") rfl (by simp)

/-- C8: every successful run returns a record with exactly the five fields of
`PipelineResult`, where `zip_file` is the package name with a `.zip`
extension, `requirements_hash` is the computed fingerprint, `license_info` is
echoed unmodified and `package`/`version` are those of the request; moreover
the returned record does not depend on the ledger, so the PUBLISHED and
SKIPPED branches produce the same return value. -/
theorem pipeline_result_shape {α : Type} (env : Env) (event : BuildEvent α)
    (txt hash : String)
    (hfr : freeze_requirements event.package env.walk event.version = .ok (txt, hash)) :
    (∃ tr, main env event = .ok
      ({ zip_file := event.package ++ ".zip", package := event.package,
         version := event.version, requirements_hash := hash,
         license_info := event.license_info }, tr)) ∧
    (∀ ledger1 ledger2 : List LedgerRecord,
      (main ⟨env.installExit, env.walk, ledger1⟩ event).map Prod.fst =
        (main ⟨env.installExit, env.walk, ledger2⟩ event).map Prod.fst) := by
  constructor
  · exact ⟨_, main_eq env event txt hash hfr⟩
  · intro ledger1 ledger2
    rw [main_eq ⟨env.installExit, env.walk, ledger1⟩ event txt hash hfr,
        main_eq ⟨env.installExit, env.walk, ledger2⟩ event txt hash hfr]
    rfl

/-- C8 witness: the concrete shape of the returned record on the
end-to-end-scenario tree. -/
theorem pipeline_result_shape_witness :
    (∃ tr, main ⟨0, c1walk1, []⟩ (⟨"requests", "2.31.0", "MIT"⟩ : BuildEvent String) = .ok
      ({ zip_file := "requests" ++ ".zip", package := "requests",
         version := "2.31.0",
         requirements_hash := sha256_hexdigest "requests==2.31.0\nurllib3==2.0.0",
         license_info := "MIT" }, tr)) ∧
    (∀ ledger1 ledger2 : List LedgerRecord,
      (main ⟨0, c1walk1, ledger1⟩ (⟨"requests", "2.31.0", "MIT"⟩ : BuildEvent String)).map
          Prod.fst =
        (main ⟨0, c1walk1, ledger2⟩ (⟨"requests", "2.31.0", "MIT"⟩ : BuildEvent String)).map
          Prod.fst) :=
  pipeline_result_shape ⟨0, c1walk1, []⟩ ⟨"requests", "2.31.0", "MIT"⟩
    "requests==2.31.0\nurllib3==2.0.0"
    (sha256_hexdigest "requests==2.31.0\nurllib3==2.0.0") rfl

/-- C3 (exhibiting the code's divergence from the claim): a run in which the
external installer exits non-zero does *not* abort — `install` never examines
the subprocess exit status (`build.py` lines 160-166 log the
`subprocess.run` result without checking `returncode`), so the pipeline
proceeds all the way to the upload and the ledger write.  Concretely, with
installer exit status 1, an empty resulting tree and an empty ledger, the run
succeeds and its trace contains an upload and a ledger write. -/
theorem install_failure_not_fatal :
    ∃ res tr, main ⟨1, [], []⟩ (⟨"p", "1", "MIT"⟩ : BuildEvent String) = .ok (res, tr) ∧
      0 < tr.countP Event.isUpload ∧ 0 < tr.countP Event.isLedgerWrite :=
  ⟨⟨"p" ++ ".zip", "p", "1", sha256_hexdigest "", "MIT"⟩,
   [Event.installer "p" 1,
    Event.s3Upload (zip_dir_path "p") "p" ("p" ++ ".zip"),
    Event.ledgerWrite "p" "1" "" (sha256_hexdigest "")],
   rfl, by decide, by decide⟩

/-- If no line of a `PKG-INFO` file carries the `Version:` header, the
version component of the scan stays unassigned, whatever the running name
component is. -/
theorem pkgInfoScan_foldl_fst_none :
    ∀ (lines : List String) (acc2 : Option String),
      (∀ line ∈ lines, line.take 8 ≠ "Version:") →
      (List.foldl pkgInfoStep (none, acc2) lines).1 = none
  | [], _, _ => rfl
  | l :: ls, acc2, h => by
      have h8 : ¬ l.take 8 = "Version:" := h l (List.mem_cons_self l ls)
      have hrest : ∀ line ∈ ls, line.take 8 ≠ "Version:" :=
        fun x hx => h x (List.mem_cons_of_mem _ hx)
      simp only [List.foldl_cons, pkgInfoStep, if_neg h8]
      by_cases h5 : l.take 5 = "Name:"
      · rw [if_pos h5]
        exact pkgInfoScan_foldl_fst_none ls _ hrest
      · rw [if_neg h5]
        exact pkgInfoScan_foldl_fst_none ls acc2 hrest

/-- A `PKG-INFO` file with no `Version:` header contributes no entry. -/
theorem parsePkgInfo_no_version (lines : List String)
    (h : ∀ line ∈ lines, line.take 8 ≠ "Version:") :
    parsePkgInfo lines = none := by
  unfold parsePkgInfo
  rcases hs : pkgInfoScan lines with ⟨a, b⟩
  have ha : a = none := by
    have := pkgInfoScan_foldl_fst_none lines none h
    unfold pkgInfoScan at hs
    rw [hs] at this
    exact this
  subst ha
  rfl

/-- If no line of a `PKG-INFO` file carries the `Name:` header, the name
component of the scan stays unassigned, whatever the running components are
(a `Version:` line touches only the version component). -/
theorem pkgInfoScan_foldl_snd_none :
    ∀ (lines : List String) (acc1 acc2 : Option String),
      (∀ line ∈ lines, line.take 5 ≠ "Name:") →
      (List.foldl pkgInfoStep (acc1, acc2) lines).2 = acc2
  | [], _, _, _ => rfl
  | l :: ls, acc1, acc2, h => by
      have h5 : ¬ l.take 5 = "Name:" := h l (List.mem_cons_self l ls)
      have hrest : ∀ line ∈ ls, line.take 5 ≠ "Name:" :=
        fun x hx => h x (List.mem_cons_of_mem _ hx)
      simp only [List.foldl_cons, pkgInfoStep, if_neg h5]
      by_cases h8 : l.take 8 = "Version:"
      · rw [if_pos h8]
        exact pkgInfoScan_foldl_snd_none ls _ acc2 hrest
      · rw [if_neg h8]
        exact pkgInfoScan_foldl_snd_none ls acc1 acc2 hrest

/-- A `PKG-INFO` file with no `Name:` header contributes no entry, even when
`Version:` lines are present. -/
theorem parsePkgInfo_no_name (lines : List String)
    (h : ∀ line ∈ lines, line.take 5 ≠ "Name:") :
    parsePkgInfo lines = none := by
  unfold parsePkgInfo
  rcases hs : pkgInfoScan lines with ⟨a, b⟩
  have hb : b = none := by
    have := pkgInfoScan_foldl_snd_none lines none none h
    unfold pkgInfoScan at hs
    rw [hs] at this
    exact this
  subst hb
  cases a <;> rfl

/-- C7: the Fingerprinter's parsing behaviour.  (1) A directory whose name
ends in `.dist-info` contributes `name==version` where `name` is the first
hyphen-separated segment of the remainder and `version` the second (so
`foo-1.2.3.dist-info` yields `foo==1.2.3`).  (2) A file named exactly
`PKG-INFO` inside a directory ending in `egg-info`, with a `Name:` line and a
`Version:` line, contributes `name==version` with both values stripped of
surrounding whitespace.  (3) A `PKG-INFO` missing the `Version:` header, and
likewise (4) one missing the `Name:` header (even with a `Version:` line
present), contributes no entry — and, `parsePkgInfo` being total, raises no
error. -/
theorem freeze_requirements_parsing
    (d name ver sub nmline vrline nm vr : String)
    (rest lines lines2 : List String)
    (hsuf : d.takeRight 10 = ".dist-info")
    (hsplit : pySplit '-' (d.dropRight 10) = name :: ver :: rest)
    (hsub : sub.takeRight 8 = "egg-info")
    (hnm5 : nmline.take 5 = "Name:") (hnm8 : nmline.take 8 ≠ "Version:")
    (hnmv : pyStrip (nmline.drop 5) = nm) (hnmne : nm ≠ "")
    (hvr8 : vrline.take 8 = "Version:") (hvr5 : vrline.take 5 ≠ "Name:")
    (hvrv : pyStrip (vrline.drop 8) = vr) (hvrne : vr ≠ "")
    (hnover : ∀ line ∈ lines, line.take 8 ≠ "Version:")
    (hnoname : ∀ line ∈ lines2, line.take 5 ≠ "Name:") :
    distInfoEntry d = .ok (some (name ++ "==" ++ ver)) ∧
    pkgInfoEntries sub [("PKG-INFO", [nmline, vrline])] = [nm ++ "==" ++ vr] ∧
    parsePkgInfo lines = none ∧
    parsePkgInfo lines2 = none := by
  refine ⟨?_, ?_, parsePkgInfo_no_version lines hnover,
    parsePkgInfo_no_name lines2 hnoname⟩
  · unfold distInfoEntry
    rw [if_pos hsuf, hsplit]
  · have hscan : pkgInfoScan [nmline, vrline] = (some vr, some nm) := by
      unfold pkgInfoScan
      simp only [List.foldl_cons, List.foldl_nil, pkgInfoStep,
        if_neg hnm8, if_pos hnm5, if_pos hvr8, if_neg hvr5, hnmv, hvrv]
    have hparse : parsePkgInfo [nmline, vrline] = some (nm ++ "==" ++ vr) := by
      unfold parsePkgInfo
      rw [hscan]
      simp [hnmne, hvrne]
    unfold pkgInfoEntries
    simp [hsub, hparse]

/-- C7 witness: the claim's concrete instances — `foo-1.2.3.dist-info` yields
`foo==1.2.3`; a `PKG-INFO` with `Name: bar` and `Version: 4.5.6` inside an
egg-info directory yields `bar==4.5.6`; a `PKG-INFO` with only a `Name:` line
(missing `Version:`) yields nothing; and a `PKG-INFO` with only a `Version:`
line (missing `Name:`) also yields nothing. -/
theorem freeze_requirements_parsing_witness :
    distInfoEntry "foo-1.2.3.dist-info" = .ok (some ("foo" ++ "==" ++ "1.2.3")) ∧
    pkgInfoEntries "/tmp/python/bar.egg-info"
        [("PKG-INFO", ["Name: bar\n", "Version: 4.5.6\n"])] =
      ["bar" ++ "==" ++ "4.5.6"] ∧
    parsePkgInfo ["Name: bar\n"] = none ∧
    parsePkgInfo ["Version: 4.5.6\n"] = none :=
  freeze_requirements_parsing "foo-1.2.3.dist-info" "foo" "1.2.3"
    "/tmp/python/bar.egg-info" "Name: bar\n" "Version: 4.5.6\n" "bar" "4.5.6"
    [] ["Name: bar\n"] ["Version: 4.5.6\n"]
    (by decide) (by decide) (by decide) (by decide) (by decide) (by decide)
    (by decide) (by decide) (by decide) (by decide) (by decide) (by decide)
    (by decide)

/-! ## Manifest-text separation lemmas (for fingerprint sensitivity) -/

/-- Splitting a newline-marked concatenation: if neither prefix contains a
newline, the prefixes and the suffixes agree. -/
theorem append_newline_inj :
    ∀ (a b r1 r2 : List Char), '\n' ∉ a → '\n' ∉ b →
      a ++ '\n' :: r1 = b ++ '\n' :: r2 → a = b ∧ r1 = r2
  | [], [], r1, r2, _, _, h => ⟨rfl, by simpa using h⟩
  | [], c :: b, r1, r2, _, hb, h => by
      exfalso
      simp only [List.nil_append, List.cons_append, List.cons.injEq] at h
      exact hb (by rw [← h.1]; exact List.mem_cons_self _ _)
  | c :: a, [], r1, r2, ha, _, h => by
      exfalso
      simp only [List.nil_append, List.cons_append, List.cons.injEq] at h
      exact ha (by rw [h.1]; exact List.mem_cons_self _ _)
  | x :: a, y :: b, r1, r2, ha, hb, h => by
      simp only [List.cons_append, List.cons.injEq] at h
      obtain ⟨hxy, htail⟩ := h
      have ha2 : '\n' ∉ a := fun hm => ha (List.mem_cons_of_mem _ hm)
      have hb2 : '\n' ∉ b := fun hm => hb (List.mem_cons_of_mem _ hm)
      obtain ⟨h1, h2⟩ := append_newline_inj a b r1 r2 ha2 hb2 htail
      exact ⟨by rw [hxy, h1], h2⟩

/-- The code points of `joinlines` on a list with at least two elements. -/
theorem joinlines_cons_cons_data (a b : String) (rest : List String) :
    (joinlines (a :: b :: rest)).data = a.data ++ '\n' :: (joinlines (b :: rest)).data := by
  show (a ++ "\n" ++ joinlines (b :: rest)).data = _
  rw [String.data_append, String.data_append, List.append_assoc]
  rfl

/-- `joinlines` is injective on equal-length lists of newline-free strings
(exactly the situation of two sorted manifests with the same number of
entries). -/
theorem joinlines_inj :
    ∀ (xs ys : List String), xs.length = ys.length →
      (∀ s ∈ xs, '\n' ∉ s.data) → (∀ s ∈ ys, '\n' ∉ s.data) →
      joinlines xs = joinlines ys → xs = ys
  | [], [], _, _, _, _ => rfl
  | [], _ :: _, hlen, _, _, _ => by simp at hlen
  | _ :: _, [], hlen, _, _, _ => by simp at hlen
  | [x], [y], _, _, _, h => by
      rw [show joinlines [x] = x from rfl, show joinlines [y] = y from rfl] at h
      rw [h]
  | [x], y :: y2 :: ys, hlen, _, _, _ => by simp at hlen
  | x :: x2 :: xs, [y], hlen, _, _, _ => by simp at hlen
  | x :: x2 :: xs, y :: y2 :: ys, hlen, hx, hy, h => by
      have hd := congrArg String.data h
      rw [joinlines_cons_cons_data, joinlines_cons_cons_data] at hd
      obtain ⟨h1, h2⟩ := append_newline_inj x.data y.data _ _
        (hx x (List.mem_cons_self _ _)) (hy y (List.mem_cons_self _ _)) hd
      have hxeq : x = y := string_eq_of_data_eq h1
      have hrest : joinlines (x2 :: xs) = joinlines (y2 :: ys) := string_eq_of_data_eq h2
      have htl : x2 :: xs = y2 :: ys :=
        joinlines_inj (x2 :: xs) (y2 :: ys) (by simpa using hlen)
          (fun s hs => hx s (List.mem_cons_of_mem _ hs))
          (fun s hs => hy s (List.mem_cons_of_mem _ hs)) hrest
      rw [hxeq, htl]

/-- Two entry lists that are, respectively, permutations of `F + [e1]` and
`F + [e2]` with `e1 ≠ e2` have different sorted forms. -/
theorem sortStrings_ne (F : List String) (e1 e2 : String) (l1 l2 : List String)
    (hp1 : l1.Perm (F ++ [e1])) (hp2 : l2.Perm (F ++ [e2])) (hne : e1 ≠ e2) :
    sortStrings l1 ≠ sortStrings l2 := by
  intro heq
  have hperm : l1.Perm l2 := by
    have hs1 := List.perm_insertionSort pyLe l1
    have hs2 := List.perm_insertionSort pyLe l2
    have heq2 : List.insertionSort pyLe l1 = List.insertionSort pyLe l2 := heq
    rw [heq2] at hs1
    exact hs1.symm.trans hs2
  have h12 : (F ++ [e1]).Perm (F ++ [e2]) := hp1.symm.trans (hperm.trans hp2)
  have hc := h12.count_eq e1
  have c1 : [e1].count e1 = 1 := by simp
  have c2 : [e2].count e1 = 0 := List.count_eq_zero.mpr (by simp [hne])
  rw [List.count_append, List.count_append, c1, c2] at hc
  omega

/-- C9 counterexample: two trees that differ only in the version of their
single resolved dependency — package `a` at version `1-x` versus `1-y`,
recorded as usual in the dist-info directory name — receive the *same*
manifest text and the *same* fingerprint, because the dist-info parser keeps
only the first two hyphen-separated segments and so truncates the version at
its first hyphen. -/
theorem fingerprint_sensitivity_counterexample :
    freeze_requirements "a" [⟨"/tmp/python", ["a-1-x.dist-info"], []⟩] "1-x" =
      .ok ("a==1", sha256_hexdigest "a==1") ∧
    freeze_requirements "a" [⟨"/tmp/python", ["a-1-y.dist-info"], []⟩] "1-y" =
      .ok ("a==1", sha256_hexdigest "a==1") ∧
    ("1-x" : String) ≠ "1-y" :=
  ⟨rfl, rfl, by decide⟩

/-- C9 (amended): if two walks discover the same entries except that a single
dependency `n` appears at version `v1` in one and `v2 ≠ v1` in the other —
with the *parsed* entries `n==v1`, `n==v2` genuinely distinct and all entries
free of newlines — then the two digested manifest texts differ; consequently
the two fingerprints differ unless those two distinct texts form a SHA-256
collision. -/
theorem fingerprint_sensitivity
    (p1 p2 ver1 ver2 : String) (w1 w2 : List WalkDir) (l1 l2 F : List String)
    (n v1 v2 t1 h1 t2 h2 : String)
    (hw1 : walkEntries w1 = .ok l1) (hw2 : walkEntries w2 = .ok l2)
    (hp1 : l1.Perm (F ++ [n ++ "==" ++ v1])) (hp2 : l2.Perm (F ++ [n ++ "==" ++ v2]))
    (hv : v1 ≠ v2)
    (hF : ∀ s ∈ F, '\n' ∉ s.data) (hn : '\n' ∉ n.data)
    (hv1 : '\n' ∉ v1.data) (hv2 : '\n' ∉ v2.data)
    (hr1 : freeze_requirements p1 w1 ver1 = .ok (t1, h1))
    (hr2 : freeze_requirements p2 w2 ver2 = .ok (t2, h2)) :
    joinlines (sortStrings l1) ≠ joinlines (sortStrings l2) ∧
    (h1 ≠ h2 ∨ sha256_hexdigest (joinlines (sortStrings l1)) =
        sha256_hexdigest (joinlines (sortStrings l2))) := by
  have hee : (n ++ "==" ++ v1) ≠ (n ++ "==" ++ v2) := by
    intro he
    apply hv
    apply string_eq_of_data_eq
    have hd := congrArg String.data he
    rw [String.data_append, String.data_append, String.data_append,
        String.data_append] at hd
    exact List.append_cancel_left hd
  have hentry_nl : ∀ (v : String), '\n' ∉ v.data → '\n' ∉ (n ++ "==" ++ v).data := by
    intro v hv0 hmem
    rw [String.data_append, String.data_append] at hmem
    rcases List.mem_append.mp hmem with hmem | hmem
    · rcases List.mem_append.mp hmem with hmem | hmem
      · exact hn hmem
      · simp at hmem
    · exact hv0 hmem
  have hnl1 : ∀ s ∈ sortStrings l1, '\n' ∉ s.data := by
    intro s hs
    have : s ∈ l1 := ((List.perm_insertionSort pyLe l1).mem_iff).mp hs
    rcases List.mem_append.mp (hp1.mem_iff.mp this) with h | h
    · exact hF s h
    · rw [List.mem_singleton.mp h]
      exact hentry_nl v1 hv1
  have hnl2 : ∀ s ∈ sortStrings l2, '\n' ∉ s.data := by
    intro s hs
    have : s ∈ l2 := ((List.perm_insertionSort pyLe l2).mem_iff).mp hs
    rcases List.mem_append.mp (hp2.mem_iff.mp this) with h | h
    · exact hF s h
    · rw [List.mem_singleton.mp h]
      exact hentry_nl v2 hv2
  have hlen : (sortStrings l1).length = (sortStrings l2).length := by
    show (List.insertionSort pyLe l1).length = (List.insertionSort pyLe l2).length
    rw [(List.perm_insertionSort pyLe l1).length_eq,
        (List.perm_insertionSort pyLe l2).length_eq,
        hp1.length_eq, hp2.length_eq]
    simp
  have hsne : sortStrings l1 ≠ sortStrings l2 :=
    sortStrings_ne F (n ++ "==" ++ v1) (n ++ "==" ++ v2) l1 l2 hp1 hp2 hee
  have htext : joinlines (sortStrings l1) ≠ joinlines (sortStrings l2) := by
    intro hj
    exact hsne (joinlines_inj (sortStrings l1) (sortStrings l2) hlen hnl1 hnl2 hj)
  refine ⟨htext, ?_⟩
  by_cases hcol : sha256_hexdigest (joinlines (sortStrings l1)) =
      sha256_hexdigest (joinlines (sortStrings l2))
  · exact Or.inr hcol
  · left
    rw [freeze_requirements_eq p1 ver1 w1 l1 hw1] at hr1
    rw [freeze_requirements_eq p2 ver2 w2 l2 hw2] at hr2
    simp only [Except.ok.injEq, Prod.mk.injEq] at hr1 hr2
    rw [← hr1.2, ← hr2.2]
    exact hcol

/-- C9 witness: two concrete one-package-changed trees (`a` at version 1
versus 3, next to `b` at version 2) have different digested manifest texts,
and their fingerprints differ unless those texts collide under SHA-256. -/
theorem fingerprint_sensitivity_witness :
    joinlines (sortStrings ["b==2", "a==1"]) ≠ joinlines (sortStrings ["a==3", "b==2"]) ∧
    (sha256_hexdigest "a==1\nb==2" ≠ sha256_hexdigest "a==3\nb==2" ∨
     sha256_hexdigest (joinlines (sortStrings ["b==2", "a==1"])) =
       sha256_hexdigest (joinlines (sortStrings ["a==3", "b==2"]))) :=
  fingerprint_sensitivity "a" "a" "1" "3"
    [⟨"/tmp/python", ["b-2.dist-info", "a-1.dist-info"], []⟩]
    [⟨"/tmp/python", ["a-3.dist-info", "b-2.dist-info"], []⟩]
    ["b==2", "a==1"] ["a==3", "b==2"] ["b==2"]
    "a" "1" "3" "a==1\nb==2" (sha256_hexdigest "a==1\nb==2")
    "a==3\nb==2" (sha256_hexdigest "a==3\nb==2")
    rfl rfl (List.Perm.refl _) (List.Perm.swap "b==2" ("a" ++ "==" ++ "3") [])
    (by decide) (by decide) (by decide) (by decide) (by decide) rfl rfl

end Build
